import Mathlib

/-
  Verification of the spectral-quantity recomputation engine of the radis
  repository (spectrum rescaling: reachability, redundancy, update graph,
  updater, rescalers).

  The engine itself (radis/spectrum/rescale.py) is not among the provided
  sources; only its test suite (radis/test/spectrum/test_rescale.py) is.
  The definitions below are therefore modelled from the specification
  (spec.md sections 3, 4 and 8) and from the concrete behaviour documented
  in the test file, in particular the two literal `_build_update_graph`
  results quoted in test_rescale_vs_direct_computation.

  Spectral arrays are wavelength-indexed arrays in the code; every formula
  of the registry acts pointwise, so an array is modelled by a single
  scalar sample and floating-point arithmetic by exact field arithmetic (a
  relative tolerance of 1e-6 in the tests is absorbed by exact equality).
  To keep every definition executable, the scalar type is a generic field
  `α` and the two transcendental functions used by the registry are passed
  in as parameters `aexp` and `alog`; the theorems instantiate `α := ℝ`,
  `aexp := Real.exp`, `alog := Real.log`.
-/

set_option maxHeartbeats 1000000

namespace Radis

/-- The spectral quantity names of the registry (spec section 3, and the
keys and precursors appearing in the update graphs documented in
test_rescale.py).  `transmittance` and `radiance` are the slit-convolved
variants; no slit is applied in the scenarios modelled here, so no
derivation rule produces or consumes them. -/
inductive Qty where
  | abscoeff
  | absorbance
  | emisscoeff
  | emissivity_noslit
  | transmittance
  | radiance
  | radiance_noslit
  | transmittance_noslit
  | xsection
deriving DecidableEq, Fintype

open Qty

/-- The fixed catalogue of quantity names, in the order used by the
equilibrium extension of the update graph documented in test_rescale.py. -/
def allQty : List Qty :=
  [abscoeff, absorbance, emisscoeff, emissivity_noslit, transmittance, radiance,
   radiance_noslit, transmittance_noslit, xsection]

/-- The regime-independent derivation paths (target, precursors) of the
Quantity Registry, in registry priority order; these are exactly the
combinations of the non-equilibrium `_build_update_graph` result documented
in test_rescale.py (lines 311-322). -/
def baseDeps : List (Qty × List Qty) :=
  [(transmittance_noslit, [absorbance]),
   (absorbance, [transmittance_noslit]),
   (absorbance, [abscoeff]),
   (abscoeff, [absorbance]),
   (abscoeff, [xsection]),
   (radiance_noslit, [emisscoeff, abscoeff]),
   (emisscoeff, [radiance_noslit, abscoeff]),
   (xsection, [abscoeff])]

/-- The equilibrium-only derivation paths (spec section 4.1): Kirchhoff's
law for emissivity_noslit, the direct blackbody-weighted radiance_noslit
from abscoeff alone, and the Kirchhoff emission coefficient from abscoeff
(used by `update("emisscoeff")` at equilibrium in
test_recompute_equilibrium). -/
def eqDeps : List (Qty × List Qty) :=
  [(emissivity_noslit, [transmittance_noslit]),
   (radiance_noslit, [abscoeff]),
   (emisscoeff, [abscoeff])]

/-- The derivation paths valid under a regime (spec section 3: equilibrium
enables the Kirchhoff shortcuts, non-equilibrium must not use them). -/
def ruleTable (eq : Bool) : List (Qty × List Qty) :=
  baseDeps ++ (if eq then eqDeps else [])

section Engine

variable {α : Type} [Field α]

/-- Modelled from the spec: the ConditionSet of a spectrum (spec section
3); radis/spectrum/rescale.py reads it from `spectrum.conditions`.
`number_density` stands for the opaque value N(pressure, Tgas) and `planck`
for the opaque blackbody-weighted radiance at Tgas; both are treated by the
core as scalars supplied by the units collaborator.  Temperatures are only
compared for equality by the regime check, so they are kept rational. -/
structure Conditions (α : Type) where
  path_length : α
  mole_fraction : α
  number_density : α
  planck : α
  Tgas : ℚ
  Tvib : Option ℚ
  Trot : Option ℚ
  thermal_equilibrium : Bool

/-- A spectrum: a partial assignment of values to quantity names (the
known-quantity set `_q` of the python Spectrum object, pointwise) together
with its conditions. -/
structure Spectrum (α : Type) where
  val : Qty → Option α
  cond : Conditions α

/-- Modelled from the spec: a DerivationRule of the Quantity Registry (spec
section 3): a target, its precursor combination and the closed-form
formula, which reads the precursor values out of a total valuation. -/
structure DerivationRule (α : Type) where
  target : Qty
  precursors : List Qty
  formula : Conditions α → (Qty → α) → α

/-- Modelled from the spec: the regime-independent rules of the Quantity
Registry with their formulas (spec section 4.1):
absorbance = abscoeff * path_length (and inverse),
transmittance_noslit = exp(-absorbance) (and inverse via -ln),
xsection = abscoeff / (mole_fraction * number_density) (and inverse),
radiance_noslit from (emisscoeff, abscoeff) by the uniform-column solution
of the one-dimensional radiative transfer equation, and its inverse for
emisscoeff (ill-posed at vanishing abscoeff, spec section 9). -/
def baseRules (aexp alog : α → α) : List (DerivationRule α) :=
  [ ⟨transmittance_noslit, [absorbance], fun _ v => aexp (-(v absorbance))⟩,
    ⟨absorbance, [transmittance_noslit], fun _ v => -alog (v transmittance_noslit)⟩,
    ⟨absorbance, [abscoeff], fun c v => v abscoeff * c.path_length⟩,
    ⟨abscoeff, [absorbance], fun c v => v absorbance / c.path_length⟩,
    ⟨abscoeff, [xsection], fun c v => v xsection * c.mole_fraction * c.number_density⟩,
    ⟨radiance_noslit, [emisscoeff, abscoeff],
      fun c v => v emisscoeff / v abscoeff * (1 - aexp (-(v abscoeff * c.path_length)))⟩,
    ⟨emisscoeff, [radiance_noslit, abscoeff],
      fun c v => v radiance_noslit * v abscoeff / (1 - aexp (-(v abscoeff * c.path_length)))⟩,
    ⟨xsection, [abscoeff], fun c v => v abscoeff / (c.mole_fraction * c.number_density)⟩ ]

/-- Modelled from the spec: the equilibrium-only rules with their formulas
(spec section 4.1): emissivity_noslit = 1 - transmittance_noslit
(Kirchhoff), radiance_noslit = (1 - exp(-abscoeff*L)) * planck directly
from abscoeff, and emisscoeff = abscoeff * planck (Kirchhoff emission). -/
def eqRules (aexp : α → α) : List (DerivationRule α) :=
  [ ⟨emissivity_noslit, [transmittance_noslit], fun _ v => 1 - v transmittance_noslit⟩,
    ⟨radiance_noslit, [abscoeff],
      fun c v => (1 - aexp (-(v abscoeff * c.path_length))) * c.planck⟩,
    ⟨emisscoeff, [abscoeff], fun c v => v abscoeff * c.planck⟩ ]

/-- The derivation rules valid under a regime; their (target, precursors)
projection is exactly `ruleTable`. -/
def rules (aexp alog : α → α) (eq : Bool) : List (DerivationRule α) :=
  baseRules aexp alog ++ (if eq then eqRules aexp else [])

/-- One updater lookup: the first rule for `q` whose precursors are all
known (spec section 4.5: pick the first viable combination), applied to the
stored values. -/
def applyFirstRule (aexp alog : α → α) (s : Spectrum α) (q : Qty) : Option α :=
  match (rules aexp alog s.cond.thermal_equilibrium).find?
      (fun r => r.target == q && r.precursors.all (fun p => (s.val p).isSome)) with
  | some r => some (r.formula s.cond (fun p => (s.val p).getD 0))
  | none => none

/-- One pass of the updater: every unknown quantity that has a fully known
precursor combination is computed; known quantities are never overwritten
(test_update_transmittance step 1: updating changes nothing stored). -/
def stepSpectrum (aexp alog : α → α) (s : Spectrum α) : Spectrum α :=
  ⟨fun q =>
    match s.val q with
    | some v => some v
    | none => applyFirstRule aexp alog s q, s.cond⟩

/-- Modelled from the spec: `update("all")` (spec section 4.5): iterate the
updater pass to its fixpoint (9 passes always suffice, there are only 9
quantities). -/
def update_all (aexp alog : α → α) (s : Spectrum α) : Spectrum α :=
  (stepSpectrum aexp alog)^[9] s

/-- The error kinds of the engine (spec section 7). -/
inductive RescaleError where
  | UnreachableQuantity
  | RegimeMismatch
deriving DecidableEq

/-- Modelled from the spec: `update(q)` with an explicit target (spec
section 4.5): recompute, and fail with UnreachableQuantity when the
explicitly requested target could not be derived. -/
def updateQuantity (aexp alog : α → α) (q : Qty) (s : Spectrum α) :
    Except RescaleError (Spectrum α) :=
  let t := update_all aexp alog s
  if (t.val q).isSome then Except.ok t else Except.error RescaleError.UnreachableQuantity

/-- The known-quantity set of a spectrum (`get_vars`), as a sublist of the
fixed catalogue. -/
def vars (s : Spectrum α) : List Qty := allQty.filter (fun q => (s.val q).isSome)

end Engine

/-- One pass of the Reachability Analyzer fixpoint (spec section 4.2): a
quantity is added when some derivation path valid for the regime has all
its precursors already in the set. -/
def stepKnown (eq : Bool) (K : List Qty) : List Qty :=
  allQty.filter (fun q =>
    decide (q ∈ K) ||
      (ruleTable eq).any (fun pr => pr.1 == q && pr.2.all (fun p => decide (p ∈ K))))

/-- Modelled from the spec: `get_reachable` (spec section 4.2): the closure
of a known set under the derivation paths of the regime. -/
def get_reachable (eq : Bool) (K : List Qty) : List Qty := (stepKnown eq)^[9] K

/-- The quantities that receive the "everything can be recomputed from any
single other quantity" extension at equilibrium, read off the equilibrium
`_build_update_graph` result documented in test_rescale.py (lines 177-249):
all graph keys except `xsection`, which keeps only its zero-cost conversion
from abscoeff (spec section 4.1). -/
def eqExtKeys : List Qty :=
  [transmittance_noslit, absorbance, abscoeff, radiance_noslit, emisscoeff, emissivity_noslit]

/-- Modelled from the spec: the ordered precursor-combination list of one
quantity in the update graph (spec sections 3 and 4.4), reproducing both
literal `_build_update_graph` results documented in test_rescale.py: the
regime-independent combinations in declaration order and, at equilibrium,
one single-quantity combination for every other catalogue entry. -/
def graphCombos (eq : Bool) (q : Qty) : List (List Qty) :=
  (baseDeps.filter (fun pr => pr.1 == q)).map (fun pr => pr.2)
    ++ (if eq && decide (q ∈ eqExtKeys) then
          (allQty.filter (fun p => p != q)).map (fun p => [p])
        else [])

/-- The keys of the update graph: the derivable quantities; at equilibrium
`emissivity_noslit` becomes derivable too. -/
def graphKeys (eq : Bool) : List Qty :=
  [transmittance_noslit, absorbance, abscoeff, radiance_noslit, emisscoeff, xsection]
    ++ (if eq then [emissivity_noslit] else [])

/-- Modelled from the spec: `_build_update_graph` (spec section 4.4),
mapping each derivable quantity to its ordered precursor combinations. -/
def _build_update_graph (eq : Bool) : List (Qty × List (List Qty)) :=
  (graphKeys eq).map (fun q => (q, graphCombos eq q))

/-- Number of precursors of a combination that are not yet known. -/
def missingCount (K : List Qty) (combo : List Qty) : Nat :=
  (combo.filter (fun p => !decide (p ∈ K))).length

/-- The first combination with the fewest missing precursors (spec section
4.4: ordering favours combinations requiring the fewest missing precursors,
ties broken by declaration order). -/
def bestCombo (K : List Qty) (combos : List (List Qty)) : Option (List Qty) :=
  combos.foldl
    (fun acc c =>
      match acc with
      | none => some c
      | some b => if missingCount K c < missingCount K b then some c else some b)
    none

/-- One pass of `get_recompute`: every not-yet-known needed quantity pulls
in the precursors of its preferred combination. -/
def recomputeStep (eq : Bool) (K : List Qty) (needed : List Qty) : List Qty :=
  allQty.filter (fun q =>
    decide (q ∈ needed) ||
      needed.any (fun p =>
        !decide (p ∈ K) && decide (q ∈ ((bestCombo K (graphCombos eq p)).getD []))))

/-- Modelled from the spec: `get_recompute` (spec section 6): the set of
quantities needed to recompute the requested targets from the known set. -/
def get_recompute (eq : Bool) (K : List Qty) (targets : List Qty) : List Qty :=
  (recomputeStep eq K)^[9] targets

/-- Modelled from the spec: the processing order of the redundancy
compression.  Derived quantities are considered for elimination before
their precursors and the raw `abscoeff` last, so that a minimal generating
set survives; this order reproduces the outcome asserted by
test_compression. -/
def redundantOrder : List Qty :=
  [emissivity_noslit, radiance_noslit, emisscoeff, transmittance_noslit, absorbance,
   xsection, abscoeff]

/-- Greedy redundancy sweep: a known quantity is redundant when one of its
update-graph combinations lies entirely inside the known quantities not
already marked redundant; redundant quantities leave the precursor pool. -/
def redundantGo (eq : Bool) : List Qty → List Qty → List (Qty × Bool)
  | [], _ => []
  | q :: rest, pool =>
    if q ∈ pool then
      let others := pool.filter (fun p => p != q)
      if (graphCombos eq q).any (fun combo => combo.all (fun p => decide (p ∈ others))) then
        (q, true) :: redundantGo eq rest others
      else
        (q, false) :: redundantGo eq rest pool
    else redundantGo eq rest pool

/-- Modelled from the spec: `get_redundant` (spec sections 4.3 and 6),
restricted as test_compression pins it down: the sweep is greedy (a
quantity already classified redundant is no longer available as a precursor
for later ones), which is what keeps `abscoeff` non-redundant there. -/
def get_redundant (eq : Bool) (K : List Qty) : List (Qty × Bool) :=
  redundantGo eq redundantOrder K

section Numeric

variable {α : Type} [Field α]

/-- The canonical consistent valuation generated by an absorption
coefficient sample `k`, an emission coefficient sample `j` and the
conditions: every registry relation of spec section 4.1 holds of it.
The slit quantities get a dummy value; no rule involves them here. -/
def Canon (aexp : α → α) (c : Conditions α) (k j : α) : Qty → α
  | abscoeff => k
  | absorbance => k * c.path_length
  | emisscoeff => j
  | emissivity_noslit => 1 - aexp (-(k * c.path_length))
  | transmittance => 0
  | radiance => 0
  | radiance_noslit => j / k * (1 - aexp (-(k * c.path_length)))
  | transmittance_noslit => aexp (-(k * c.path_length))
  | xsection => k / (c.mole_fraction * c.number_density)

/-- The well-posedness side conditions under which every registry formula
is exact: nonzero path length, mole fraction, number density and absorption
coefficient (spec sections 4.1 and 9: inverse derivations are ill-posed at
vanishing abscoeff), and Kirchhoff's relation between the emission and
absorption samples whenever the spectrum is at thermal equilibrium. -/
def WellPosed (c : Conditions α) (k j : α) : Prop :=
  c.path_length ≠ 0 ∧ c.mole_fraction ≠ 0 ∧ c.number_density ≠ 0 ∧ k ≠ 0 ∧
    (c.thermal_equilibrium = true → j = k * c.planck)

/-- A spectrum is consistent with the canonical valuation when every stored
quantity equals its canonical value (this is the state every
engine-produced spectrum is in). -/
def Consistent (aexp : α → α) (s : Spectrum α) (k j : α) : Prop :=
  ∀ q v, s.val q = some v → v = Canon aexp s.cond k j q

/-- Deletion of one quantity from the known set (`del s._q[q]`). -/
def deleteQty (q : Qty) (s : Spectrum α) : Spectrum α :=
  ⟨fun p => if p = q then none else s.val p, s.cond⟩

/-- A length unit understood by the units collaborator. -/
inductive LengthUnit where
  | cm
  | m
  | km
deriving DecidableEq

/-- Conversion factor to the internal unit (cm). -/
def LengthUnit.toCm : LengthUnit → α
  | .cm => 1
  | .m => 100
  | .km => 100000

/-- A unit-valued length input (the astropy quantity of the tests). -/
structure LengthValue (α : Type) where
  value : α
  unit : LengthUnit

/-- Normalization of a unit-valued length to the internal unit (spec
section 4.6: unit-valued inputs are normalized before the ratio is
computed). -/
def LengthValue.toInternal (L : LengthValue α) : α := L.value * L.unit.toCm

/-- Modelled from the spec: `rescale_path_length` on a value already in the
internal unit (spec section 4.6): intensive quantities unchanged,
absorbance scaled by the length ratio, transmittance_noslit recomputed via
exp(-absorbance), radiance_noslit recomputed by the transfer-equation
solution over the new length (directly from abscoeff at equilibrium when no
emisscoeff is stored), emissivity_noslit via Kirchhoff at equilibrium; the
stored path_length condition becomes the new value. -/
def rescale_path_length_cm (aexp alog : α → α) (s : Spectrum α) (newL : α) : Spectrum α :=
  let r := newL / s.cond.path_length
  ⟨fun q =>
    match q with
    | abscoeff => s.val abscoeff
    | xsection => s.val xsection
    | emisscoeff => s.val emisscoeff
    | transmittance => s.val transmittance
    | radiance => s.val radiance
    | absorbance => (s.val absorbance).map (fun A => A * r)
    | transmittance_noslit =>
      (s.val transmittance_noslit).bind (fun T =>
        match s.val absorbance with
        | some A => some (aexp (-(A * r)))
        | none => some (aexp (r * alog T)))
    | radiance_noslit =>
      (s.val radiance_noslit).bind (fun _ =>
        match s.val emisscoeff, s.val abscoeff with
        | some jv, some kv => some (jv / kv * (1 - aexp (-(kv * newL))))
        | _, _ =>
          if s.cond.thermal_equilibrium then
            (s.val abscoeff).map (fun kv => (1 - aexp (-(kv * newL))) * s.cond.planck)
          else none)
    | emissivity_noslit =>
      (s.val emissivity_noslit).bind (fun _ =>
        if s.cond.thermal_equilibrium then
          match s.val absorbance with
          | some A => some (1 - aexp (-(A * r)))
          | none => (s.val abscoeff).map (fun kv => 1 - aexp (-(kv * newL)))
        else none),
   { s.cond with path_length := newL }⟩

/-- `rescale_path_length` on a unit-valued input: normalize to the internal
unit, then rescale. -/
def rescale_path_length (aexp alog : α → α) (s : Spectrum α) (L : LengthValue α) : Spectrum α :=
  rescale_path_length_cm aexp alog s L.toInternal

/-- Modelled from the spec: `rescale_mole_fraction` (spec section 4.6):
xsection unchanged, abscoeff (and emisscoeff, both linear in the molecule
density) scaled by the mole-fraction ratio, the remaining quantities
re-derived through the updater-style formulas from the rescaled
coefficients; the stored mole_fraction condition becomes the new value. -/
def rescale_mole_fraction (aexp alog : α → α) (s : Spectrum α) (newX : α) : Spectrum α :=
  let r := newX / s.cond.mole_fraction
  ⟨fun q =>
    match q with
    | xsection => s.val xsection
    | transmittance => s.val transmittance
    | radiance => s.val radiance
    | abscoeff => (s.val abscoeff).map (fun kv => kv * r)
    | emisscoeff => (s.val emisscoeff).map (fun jv => jv * r)
    | absorbance => (s.val absorbance).map (fun A => A * r)
    | transmittance_noslit =>
      (s.val transmittance_noslit).bind (fun T =>
        match s.val absorbance with
        | some A => some (aexp (-(A * r)))
        | none => some (aexp (r * alog T)))
    | radiance_noslit =>
      (s.val radiance_noslit).bind (fun _ =>
        match s.val emisscoeff, s.val abscoeff with
        | some jv, some kv =>
          some (jv * r / (kv * r) * (1 - aexp (-(kv * r * s.cond.path_length))))
        | _, _ => none)
    | emissivity_noslit =>
      (s.val emissivity_noslit).bind (fun _ =>
        if s.cond.thermal_equilibrium then
          (s.val abscoeff).map (fun kv => 1 - aexp (-(kv * r * s.cond.path_length)))
        else none),
   { s.cond with mole_fraction := newX }⟩

/-- The check argument of `is_at_equilibrium`. -/
inductive CheckMode where
  | warn
  | error
deriving DecidableEq

/-- Whether the stored temperatures actually describe thermal equilibrium:
every set non-gas temperature coincides with Tgas (spec section 3). -/
def temps_match (c : Conditions α) : Bool :=
  (match c.Tvib with | none => true | some T => T == c.Tgas) &&
  (match c.Trot with | none => true | some T => T == c.Tgas)

/-- Modelled from the spec: `is_at_equilibrium(check)` (spec section 7):
when the declared regime disagrees with the temperatures, fail
assertion-style under check=error, otherwise only emit a warning (second
component of the result) and let computation proceed under the declared
regime. -/
def is_at_equilibrium (c : Conditions α) (check : CheckMode) :
    Except RescaleError (Bool × Bool) :=
  let actual := temps_match c
  if actual == c.thermal_equilibrium then Except.ok (actual, false)
  else
    match check with
    | CheckMode.error => Except.error RescaleError.RegimeMismatch
    | CheckMode.warn => Except.ok (actual, true)

end Numeric

/-- The known set of the equilibrium CO test spectrum after `update()` from
abscoeff alone (test_compression), in catalogue order. -/
def K7 : List Qty :=
  [abscoeff, absorbance, emisscoeff, emissivity_noslit, radiance_noslit,
   transmittance_noslit, xsection]

section Inputs

variable (α : Type) [Field α]

/-- Non-equilibrium conditions with unit scalars (concrete test input). -/
def condNe : Conditions α := ⟨1, 1, 1, 1, 1500, none, none, false⟩

/-- A non-equilibrium spectrum knowing only abscoeff (the state of the CO
test file, with thermal_equilibrium forced off as in test_get_recompute). -/
def specAbscoeffNe : Spectrum α :=
  ⟨fun q => if q = abscoeff then some 1 else none, condNe α⟩

/-- Conditions declared at equilibrium whose vibrational temperature was
moved away from Tgas (conditions of test_get_recompute after setting Tvib
to 2000 K while Tgas is 1500 K). -/
def condMismatch : Conditions α := ⟨1, 1, 1, 1, 1500, some 2000, none, true⟩

end Inputs

section CanonInputs

variable (α : Type) [Field α] (aexp : α → α)

/-- A consistent non-equilibrium spectrum knowing abscoeff and absorbance. -/
def specRoundTrip : Spectrum α :=
  ⟨fun q => if q = abscoeff ∨ q = absorbance then some (Canon aexp (condNe α) 1 1 q) else none,
   condNe α⟩

/-- A consistent non-equilibrium spectrum with raw coefficients and the
three derived quantities, used to exercise the rescale-vs-recompute
equivalence. -/
def specFull : Spectrum α :=
  ⟨fun q =>
    if q = abscoeff ∨ q = emisscoeff ∨ q = absorbance ∨ q = transmittance_noslit ∨
        q = radiance_noslit then
      some (Canon aexp (condNe α) 1 1 q)
    else none, condNe α⟩

/-- A consistent spectrum knowing abscoeff and xsection. -/
def specXsection : Spectrum α :=
  ⟨fun q => if q = abscoeff ∨ q = xsection then some (Canon aexp (condNe α) 1 1 q) else none,
   condNe α⟩

end CanonInputs

section Scenarios

variable {α : Type} [Field α]

/-- An equilibrium spectrum built from an absorption coefficient sample
alone. -/
def eqFromAbscoeff (c : Conditions α) (k : α) : Spectrum α :=
  ⟨fun q => if q = abscoeff then some k else none, { c with thermal_equilibrium := true }⟩

/-- The same spectrum after `update("emisscoeff")` at equilibrium has added
the Kirchhoff emission coefficient, with the regime then forced to
non-equilibrium (the `s2` of test_recompute_equilibrium). -/
def neFromKirchhoff (c : Conditions α) (k : α) : Spectrum α :=
  ⟨fun q =>
    if q = abscoeff then some k
    else if q = emisscoeff then some (k * c.planck) else none,
   { c with thermal_equilibrium := false }⟩

/-- The raw-precursor restriction of a spectrum at a new path length: only
the intensive coefficients abscoeff and emisscoeff are kept, and the
path_length condition is replaced (the "recompute from scratch at the
target path_length" side of the rescale-consistency property). -/
def rawPrecursors (s : Spectrum α) (newL : α) : Spectrum α :=
  ⟨fun q =>
    if q = abscoeff then s.val abscoeff
    else if q = emisscoeff then s.val emisscoeff else none,
   { s.cond with path_length := newL }⟩

end Scenarios

/- ------------------------------------------------------------------ -/
/- Helper lemmas                                                       -/
/- ------------------------------------------------------------------ -/

theorem mem_allQty (q : Qty) : q ∈ allQty := by cases q <;> simp [allQty]

theorem rules_proj {α : Type} [Field α] (aexp alog : α → α) (eq : Bool) :
    (rules aexp alog eq).map (fun r => (r.target, r.precursors)) = ruleTable eq := by
  cases eq <;> rfl

theorem find?_isSome_eq_any {α : Type} (p : α → Bool) (l : List α) :
    (l.find? p).isSome = l.any p := by
  induction l with
  | nil => rfl
  | cons a t ih =>
    cases hp : p a
    · simp [List.find?_cons, hp, ih]
    · simp [List.find?_cons, hp]

theorem any_rules_eq_any_table {α : Type} [Field α] (aexp alog : α → α) (eq : Bool)
    (f : Qty → List Qty → Bool) :
    (rules aexp alog eq).any (fun r => f r.target r.precursors) =
      (ruleTable eq).any (fun pr => f pr.1 pr.2) := by
  cases eq <;> rfl

theorem applyFirstRule_isSome {α : Type} [Field α] (aexp alog : α → α) (s : Spectrum α)
    (q : Qty) :
    (applyFirstRule aexp alog s q).isSome =
      (ruleTable s.cond.thermal_equilibrium).any
        (fun pr => pr.1 == q && pr.2.all (fun p => (s.val p).isSome)) := by
  unfold applyFirstRule
  rw [← any_rules_eq_any_table aexp alog s.cond.thermal_equilibrium
    (fun t ps => t == q && ps.all (fun p => (s.val p).isSome))]
  rw [← find?_isSome_eq_any]
  cases h : (rules aexp alog s.cond.thermal_equilibrium).find?
      (fun r => r.target == q && r.precursors.all (fun p => (s.val p).isSome)) <;>
      simp [h]

theorem stepSpectrum_val {α : Type} [Field α] (aexp alog : α → α) (s : Spectrum α) (q : Qty) :
    (stepSpectrum aexp alog s).val q =
      match s.val q with
      | some v => some v
      | none => applyFirstRule aexp alog s q := rfl

theorem stepSpectrum_cond {α : Type} [Field α] (aexp alog : α → α) (s : Spectrum α) :
    (stepSpectrum aexp alog s).cond = s.cond := rfl

theorem stepSpectrum_isSome {α : Type} [Field α] (aexp alog : α → α) (s : Spectrum α)
    (q : Qty) :
    ((stepSpectrum aexp alog s).val q).isSome =
      ((s.val q).isSome ||
        (ruleTable s.cond.thermal_equilibrium).any
          (fun pr => pr.1 == q && pr.2.all (fun p => (s.val p).isSome))) := by
  rw [stepSpectrum_val]
  cases hv : s.val q
  · simp [applyFirstRule_isSome]
  · simp

theorem mem_vars {α : Type} [Field α] {s : Spectrum α} {q : Qty} :
    q ∈ vars s ↔ (s.val q).isSome = true := by
  simp [vars, List.mem_filter, mem_allQty]

theorem decide_mem_vars {α : Type} [Field α] (s : Spectrum α) (q : Qty) :
    decide (q ∈ vars s) = (s.val q).isSome := by
  by_cases h : q ∈ vars s
  · simp [h, mem_vars.mp h]
  · have h2 : (s.val q).isSome = false := by
      cases hs : (s.val q).isSome
      · rfl
      · exact absurd (mem_vars.mpr hs) h
    simp [h, h2]

theorem vars_stepSpectrum {α : Type} [Field α] (aexp alog : α → α) (s : Spectrum α) :
    vars (stepSpectrum aexp alog s) = stepKnown s.cond.thermal_equilibrium (vars s) := by
  unfold stepKnown
  show allQty.filter (fun q => ((stepSpectrum aexp alog s).val q).isSome) = _
  refine List.filter_congr (fun q _ => ?_)
  rw [stepSpectrum_isSome]
  simp only [decide_mem_vars]

theorem iterate_cond {α : Type} [Field α] (aexp alog : α → α) (s : Spectrum α) (n : ℕ) :
    ((stepSpectrum aexp alog)^[n] s).cond = s.cond := by
  induction n with
  | zero => rfl
  | succ n ih => rw [Function.iterate_succ_apply', stepSpectrum_cond, ih]

theorem vars_iterate {α : Type} [Field α] (aexp alog : α → α) (s : Spectrum α) (n : ℕ) :
    vars ((stepSpectrum aexp alog)^[n] s) =
      (stepKnown s.cond.thermal_equilibrium)^[n] (vars s) := by
  induction n with
  | zero => rfl
  | succ n ih =>
    rw [Function.iterate_succ_apply', Function.iterate_succ_apply', vars_stepSpectrum,
      iterate_cond, ih]

theorem update_all_cond {α : Type} [Field α] (aexp alog : α → α) (s : Spectrum α) :
    (update_all aexp alog s).cond = s.cond := iterate_cond aexp alog s 9

theorem update_all_isSome {α : Type} [Field α] (aexp alog : α → α) (s : Spectrum α)
    (q : Qty) :
    ((update_all aexp alog s).val q).isSome =
      decide (q ∈ get_reachable s.cond.thermal_equilibrium (vars s)) := by
  rw [← decide_mem_vars (update_all aexp alog s) q]
  unfold update_all get_reachable
  rw [vars_iterate]

theorem rule_sound (c : Conditions ℝ) (k j : ℝ) (hw : WellPosed c k j)
    (r : DerivationRule ℝ) (hr : r ∈ rules Real.exp Real.log c.thermal_equilibrium)
    (v : Qty → ℝ) (hv : ∀ p ∈ r.precursors, v p = Canon Real.exp c k j p) :
    r.formula c v = Canon Real.exp c k j r.target := by
  obtain ⟨hL, hx, hN, hk, hj⟩ := hw
  have hkL : k * c.path_length ≠ 0 := mul_ne_zero hk hL
  have hexp1 : Real.exp (-(k * c.path_length)) ≠ 1 := by
    intro h
    have h0 : Real.exp (-(k * c.path_length)) = Real.exp 0 := by rw [h, Real.exp_zero]
    exact hkL (by simpa using Real.exp_injective h0)
  have hsub : 1 - Real.exp (-(k * c.path_length)) ≠ 0 := sub_ne_zero.mpr (Ne.symm hexp1)
  simp only [rules, List.mem_append] at hr
  rcases hr with hb | he
  · simp only [baseRules, List.mem_cons, List.not_mem_nil, or_false] at hb
    rcases hb with rfl | rfl | rfl | rfl | rfl | rfl | rfl | rfl
    · have hva : v absorbance = k * c.path_length := hv absorbance (by simp)
      show Real.exp (-(v absorbance)) = Real.exp (-(k * c.path_length))
      rw [hva]
    · have hvt : v transmittance_noslit = Real.exp (-(k * c.path_length)) :=
        hv transmittance_noslit (by simp)
      show -Real.log (v transmittance_noslit) = k * c.path_length
      rw [hvt, Real.log_exp]
      ring
    · have hvk : v abscoeff = k := hv abscoeff (by simp)
      show v abscoeff * c.path_length = k * c.path_length
      rw [hvk]
    · have hva : v absorbance = k * c.path_length := hv absorbance (by simp)
      show v absorbance / c.path_length = k
      rw [hva]
      exact mul_div_cancel_right₀ k hL
    · have hvs : v xsection = k / (c.mole_fraction * c.number_density) :=
        hv xsection (by simp)
      show v xsection * c.mole_fraction * c.number_density = k
      rw [hvs]
      field_simp
      ring
    · have hvj : v emisscoeff = j := hv emisscoeff (by simp)
      have hvk : v abscoeff = k := hv abscoeff (by simp)
      show v emisscoeff / v abscoeff * (1 - Real.exp (-(v abscoeff * c.path_length))) =
        j / k * (1 - Real.exp (-(k * c.path_length)))
      rw [hvj, hvk]
    · have hvr : v radiance_noslit = j / k * (1 - Real.exp (-(k * c.path_length))) :=
        hv radiance_noslit (by simp)
      have hvk : v abscoeff = k := hv abscoeff (by simp)
      show v radiance_noslit * v abscoeff /
          (1 - Real.exp (-(v abscoeff * c.path_length))) = j
      rw [hvr, hvk]
      field_simp
    · have hvk : v abscoeff = k := hv abscoeff (by simp)
      show v abscoeff / (c.mole_fraction * c.number_density) =
        k / (c.mole_fraction * c.number_density)
      rw [hvk]
  · cases hE : c.thermal_equilibrium
    · rw [hE] at he
      simp at he
    · rw [hE] at he
      have hjB : j = k * c.planck := hj hE
      simp only [eqRules, if_true, List.mem_cons, List.not_mem_nil, or_false] at he
      rcases he with rfl | rfl | rfl
      · have hvt : v transmittance_noslit = Real.exp (-(k * c.path_length)) :=
          hv transmittance_noslit (by simp)
        show 1 - v transmittance_noslit = 1 - Real.exp (-(k * c.path_length))
        rw [hvt]
      · have hvk : v abscoeff = k := hv abscoeff (by simp)
        show (1 - Real.exp (-(v abscoeff * c.path_length))) * c.planck =
          j / k * (1 - Real.exp (-(k * c.path_length)))
        rw [hvk, hjB, mul_div_cancel_left₀ _ hk]
        ring
      · have hvk : v abscoeff = k := hv abscoeff (by simp)
        show v abscoeff * c.planck = j
        rw [hvk, hjB]

theorem consistent_stepSpectrum {s : Spectrum ℝ} {k j : ℝ}
    (hc : Consistent Real.exp s k j) (hw : WellPosed s.cond k j) :
    Consistent Real.exp (stepSpectrum Real.exp Real.log s) k j := by
  intro q v hqv
  show v = Canon Real.exp s.cond k j q
  rw [stepSpectrum_val] at hqv
  cases hv : s.val q with
  | some w =>
    rw [hv] at hqv
    exact (Option.some.inj hqv).symm.trans (hc q w hv)
  | none =>
    rw [hv] at hqv
    unfold applyFirstRule at hqv
    cases hf : (rules Real.exp Real.log s.cond.thermal_equilibrium).find?
        (fun r => r.target == q && r.precursors.all (fun p => (s.val p).isSome)) with
    | none =>
      rw [hf] at hqv
      exact absurd hqv (by simp)
    | some r =>
      rw [hf] at hqv
      have hmem := List.mem_of_find?_eq_some hf
      have hpred := List.find?_some hf
      simp only [Bool.and_eq_true, beq_iff_eq, List.all_eq_true] at hpred
      obtain ⟨htgt, hall⟩ := hpred
      have hv2 : ∀ p ∈ r.precursors,
          (fun p => (s.val p).getD 0) p = Canon Real.exp s.cond k j p := by
        intro p hp
        obtain ⟨u, hu⟩ := Option.isSome_iff_exists.mp (hall p hp)
        simp only [hu, Option.getD_some]
        exact hc p u hu
      have hform := rule_sound s.cond k j hw r hmem _ hv2
      rw [← Option.some.inj hqv, hform, htgt]

theorem consistent_iterate (s : Spectrum ℝ) (k j : ℝ) (hc : Consistent Real.exp s k j)
    (hw : WellPosed s.cond k j) (n : ℕ) :
    Consistent Real.exp ((stepSpectrum Real.exp Real.log)^[n] s) k j := by
  induction n with
  | zero => exact hc
  | succ n ih =>
    rw [Function.iterate_succ_apply']
    exact consistent_stepSpectrum ih ((iterate_cond Real.exp Real.log s n).symm ▸ hw)

theorem consistent_update_all {s : Spectrum ℝ} {k j : ℝ} (hc : Consistent Real.exp s k j)
    (hw : WellPosed s.cond k j) :
    Consistent Real.exp (update_all Real.exp Real.log s) k j :=
  consistent_iterate s k j hc hw 9

theorem consistent_val {s : Spectrum ℝ} {k j : ℝ} (hc : Consistent Real.exp s k j) {q : Qty}
    (h : (s.val q).isSome = true) : s.val q = some (Canon Real.exp s.cond k j q) := by
  obtain ⟨v, hv⟩ := Option.isSome_iff_exists.mp h
  rw [hv, hc q v hv]

theorem update_all_val {s : Spectrum ℝ} {k j : ℝ} (hc : Consistent Real.exp s k j)
    (hw : WellPosed s.cond k j) {q : Qty}
    (h : q ∈ get_reachable s.cond.thermal_equilibrium (vars s)) :
    (update_all Real.exp Real.log s).val q = some (Canon Real.exp s.cond k j q) := by
  have h1 : ((update_all Real.exp Real.log s).val q).isSome = true := by
    rw [update_all_isSome]
    exact decide_eq_true h
  have h2 := consistent_val (consistent_update_all hc hw) h1
  rw [update_all_cond] at h2
  exact h2

theorem vars_sublist_step {α : Type} [Field α] (aexp alog : α → α) (s : Spectrum α) :
    List.Sublist (vars s) (vars (stepSpectrum aexp alog s)) := by
  unfold vars
  apply List.monotone_filter_right
  intro q hq
  rw [stepSpectrum_isSome]
  simp only [hq, Bool.true_or]

theorem step_eq_of_vars {α : Type} [Field α] (aexp alog : α → α) (s : Spectrum α)
    (h : ∀ q, ((stepSpectrum aexp alog s).val q).isSome = (s.val q).isSome) :
    stepSpectrum aexp alog s = s := by
  have hval : (stepSpectrum aexp alog s).val = s.val := by
    funext q
    rw [stepSpectrum_val]
    cases hv : s.val q with
    | some w => rfl
    | none =>
      show applyFirstRule aexp alog s q = none
      have h2 := h q
      rw [stepSpectrum_val, hv] at h2
      simp only [Option.isSome_none] at h2
      exact Option.not_isSome_iff_eq_none.mp (by rw [h2]; simp)
  have hmk : stepSpectrum aexp alog s =
      Spectrum.mk (stepSpectrum aexp alog s).val s.cond := rfl
  rw [hmk, hval]

theorem step_lt_of_ne {α : Type} [Field α] (aexp alog : α → α) (s : Spectrum α)
    (h : stepSpectrum aexp alog s ≠ s) :
    (vars s).length < (vars (stepSpectrum aexp alog s)).length := by
  have hsub := vars_sublist_step aexp alog s
  rcases Nat.lt_or_ge (vars s).length (vars (stepSpectrum aexp alog s)).length with hlt | hge
  · exact hlt
  · exfalso
    have hlen : (vars s).length = (vars (stepSpectrum aexp alog s)).length :=
      Nat.le_antisymm hsub.length_le hge
    have heq := hsub.eq_of_length hlen
    apply h
    apply step_eq_of_vars
    intro q
    by_cases hm : q ∈ vars s
    · have hm2 : q ∈ vars (stepSpectrum aexp alog s) := heq ▸ hm
      rw [mem_vars.mp hm, mem_vars.mp hm2]
    · have hm2 : q ∉ vars (stepSpectrum aexp alog s) := fun hh => hm (heq.symm ▸ hh)
      have e1 : ((stepSpectrum aexp alog s).val q).isSome = false := by
        cases hs : ((stepSpectrum aexp alog s).val q).isSome
        · rfl
        · exact absurd (mem_vars.mpr hs) hm2
      have e2 : (s.val q).isSome = false := by
        cases hs : (s.val q).isSome
        · rfl
        · exact absurd (mem_vars.mpr hs) hm
      rw [e1, e2]

theorem vars_length_le {α : Type} [Field α] (s : Spectrum α) : (vars s).length ≤ 9 :=
  List.length_filter_le _ allQty

theorem step_chain {α : Type} [Field α] (aexp alog : α → α) (s : Spectrum α) :
    ∀ n : ℕ,
      stepSpectrum aexp alog ((stepSpectrum aexp alog)^[n] s) =
          (stepSpectrum aexp alog)^[n] s ∨
        n + 1 ≤ (vars (stepSpectrum aexp alog ((stepSpectrum aexp alog)^[n] s))).length := by
  intro n
  induction n with
  | zero =>
    simp only [Function.iterate_zero_apply]
    rcases Classical.em (stepSpectrum aexp alog s = s) with h | h
    · left
      exact h
    · right
      have hlt := step_lt_of_ne aexp alog s h
      omega
  | succ n ih =>
    rcases Classical.em
        (stepSpectrum aexp alog ((stepSpectrum aexp alog)^[n + 1] s) =
          (stepSpectrum aexp alog)^[n + 1] s) with h | h
    · left
      exact h
    · right
      have hlt := step_lt_of_ne aexp alog _ h
      rcases ih with heq | hle
      · exfalso
        apply h
        have e1 : (stepSpectrum aexp alog)^[n + 1] s = (stepSpectrum aexp alog)^[n] s := by
          rw [Function.iterate_succ_apply']
          exact heq
        rw [e1]
        exact heq
      · have e2 : stepSpectrum aexp alog ((stepSpectrum aexp alog)^[n] s) =
            (stepSpectrum aexp alog)^[n + 1] s :=
          (Function.iterate_succ_apply' (stepSpectrum aexp alog) n s).symm
        rw [e2] at hle
        omega

theorem update_all_fixpoint {α : Type} [Field α] (aexp alog : α → α) (s : Spectrum α) :
    stepSpectrum aexp alog (update_all aexp alog s) = update_all aexp alog s := by
  rcases step_chain aexp alog s 9 with h | h
  · exact h
  · exfalso
    have hb := vars_length_le (stepSpectrum aexp alog ((stepSpectrum aexp alog)^[9] s))
    omega

theorem update_all_idem {α : Type} [Field α] (aexp alog : α → α) (s : Spectrum α) :
    update_all aexp alog (update_all aexp alog s) = update_all aexp alog s := by
  have hfix := update_all_fixpoint aexp alog s
  have hiter : ∀ n : ℕ,
      (stepSpectrum aexp alog)^[n] (update_all aexp alog s) = update_all aexp alog s := by
    intro n
    induction n with
    | zero => rfl
    | succ n ih => rw [Function.iterate_succ_apply', ih, hfix]
  exact hiter 9

theorem consistent_specRoundTrip : Consistent Real.exp (specRoundTrip ℝ Real.exp) 1 1 := by
  intro q v h
  unfold specRoundTrip at h
  dsimp only at h
  split at h
  · exact (Option.some.inj h).symm
  · exact absurd h (by simp)

theorem consistent_specFull : Consistent Real.exp (specFull ℝ Real.exp) 1 1 := by
  intro q v h
  unfold specFull at h
  dsimp only at h
  split at h
  · exact (Option.some.inj h).symm
  · exact absurd h (by simp)

theorem consistent_specXsection : Consistent Real.exp (specXsection ℝ Real.exp) 1 1 := by
  intro q v h
  unfold specXsection at h
  dsimp only at h
  split at h
  · exact (Option.some.inj h).symm
  · exact absurd h (by simp)

theorem consistent_specAbscoeffNe : Consistent Real.exp (specAbscoeffNe ℝ) 1 1 := by
  intro q v h
  unfold specAbscoeffNe at h
  dsimp only at h
  split at h
  · rename_i h1
    subst h1
    exact (Option.some.inj h).symm
  · exact absurd h (by simp)

theorem consistent_eqFromAbscoeff (c : Conditions ℝ) (k : ℝ) :
    Consistent Real.exp (eqFromAbscoeff c k) k (k * c.planck) := by
  intro q v h
  unfold eqFromAbscoeff at h
  dsimp only at h
  split at h
  · rename_i h1
    subst h1
    exact (Option.some.inj h).symm
  · exact absurd h (by simp)

theorem consistent_neFromKirchhoff (c : Conditions ℝ) (k : ℝ) :
    Consistent Real.exp (neFromKirchhoff c k) k (k * c.planck) := by
  intro q v h
  unfold neFromKirchhoff at h
  dsimp only at h
  split at h
  · rename_i h1
    subst h1
    exact (Option.some.inj h).symm
  · split at h
    · rename_i h2
      subst h2
      exact (Option.some.inj h).symm
    · exact absurd h (by simp)

theorem wellPosed_condNe : WellPosed (condNe ℝ) 1 1 :=
  ⟨one_ne_zero, one_ne_zero, one_ne_zero, one_ne_zero, fun h => absurd h Bool.false_ne_true⟩

/-- The non-equilibrium update graph of the model is exactly the literal
result documented in test_rescale.py (lines 311-322). -/
theorem build_update_graph_noneq_doc :
    _build_update_graph false =
      [(transmittance_noslit, [[absorbance]]),
       (absorbance, [[transmittance_noslit], [abscoeff]]),
       (abscoeff, [[absorbance], [xsection]]),
       (radiance_noslit, [[emisscoeff, abscoeff]]),
       (emisscoeff, [[radiance_noslit, abscoeff]]),
       (xsection, [[abscoeff]])] := by decide

/-- The equilibrium update graph of the model is exactly the literal result
documented in test_rescale.py (lines 177-249). -/
theorem build_update_graph_eq_doc :
    _build_update_graph true =
      [(transmittance_noslit,
        [[absorbance], [abscoeff], [absorbance], [emisscoeff], [emissivity_noslit],
         [transmittance], [radiance], [radiance_noslit], [xsection]]),
       (absorbance,
        [[transmittance_noslit], [abscoeff], [abscoeff], [emisscoeff], [emissivity_noslit],
         [transmittance], [radiance], [radiance_noslit], [transmittance_noslit], [xsection]]),
       (abscoeff,
        [[absorbance], [xsection], [absorbance], [emisscoeff], [emissivity_noslit],
         [transmittance], [radiance], [radiance_noslit], [transmittance_noslit], [xsection]]),
       (radiance_noslit,
        [[emisscoeff, abscoeff], [abscoeff], [absorbance], [emisscoeff], [emissivity_noslit],
         [transmittance], [radiance], [transmittance_noslit], [xsection]]),
       (emisscoeff,
        [[radiance_noslit, abscoeff], [abscoeff], [absorbance], [emissivity_noslit],
         [transmittance], [radiance], [radiance_noslit], [transmittance_noslit], [xsection]]),
       (xsection, [[abscoeff]]),
       (emissivity_noslit,
        [[abscoeff], [absorbance], [emisscoeff], [transmittance], [radiance],
         [radiance_noslit], [transmittance_noslit], [xsection]])] := by decide

/- ------------------------------------------------------------------ -/
/- Claim theorems                                                      -/
/- ------------------------------------------------------------------ -/

/-- C9: update is referentially idempotent: with no intervening mutation of
the known-quantity set or the conditions, a second update() leaves every
stored quantity array bit-identical (the whole spectrum is unchanged), and
update() itself is a pure function of the known quantities and conditions
that never mutates the conditions. -/
theorem c9_update_idempotent (s : Spectrum ℝ) :
    update_all Real.exp Real.log (update_all Real.exp Real.log s) =
        update_all Real.exp Real.log s ∧
      (update_all Real.exp Real.log s).cond = s.cond :=
  ⟨update_all_idem Real.exp Real.log s, update_all_cond Real.exp Real.log s⟩

/-- C9 witness: idempotence at the concrete spectrum knowing only
abscoeff. -/
theorem c9_update_idempotent_witness :
    update_all Real.exp Real.log (update_all Real.exp Real.log (specAbscoeffNe ℝ)) =
        update_all Real.exp Real.log (specAbscoeffNe ℝ) ∧
      (update_all Real.exp Real.log (specAbscoeffNe ℝ)).cond = (specAbscoeffNe ℝ).cond :=
  c9_update_idempotent (specAbscoeffNe ℝ)

/-- C3: with known set {abscoeff}, requesting radiance_noslit resolves to
the derivation path from abscoeff alone at equilibrium (get_recompute
returns exactly {abscoeff, radiance_noslit}), while at non-equilibrium the
same request requires {abscoeff, emisscoeff, radiance_noslit}; and an
explicit update of radiance_noslit on a non-equilibrium spectrum knowing
only abscoeff fails with UnreachableQuantity, emisscoeff being absent. -/
theorem c3_get_recompute :
    get_recompute true [abscoeff] [radiance_noslit] = [abscoeff, radiance_noslit] ∧
      get_recompute false [abscoeff] [radiance_noslit] =
        [abscoeff, emisscoeff, radiance_noslit] ∧
      ∀ s : Spectrum ℝ, s.cond.thermal_equilibrium = false → vars s = [abscoeff] →
        updateQuantity Real.exp Real.log radiance_noslit s =
          Except.error RescaleError.UnreachableQuantity := by
  refine ⟨by decide, by decide, ?_⟩
  intro s hE hv
  unfold updateQuantity
  have h1 : ((update_all Real.exp Real.log s).val radiance_noslit).isSome = false := by
    rw [update_all_isSome, hE, hv]
    decide
  simp [h1]

/-- C3 witness: the explicit non-equilibrium update failure at the concrete
spectrum knowing only abscoeff. -/
theorem c3_get_recompute_witness :
    updateQuantity Real.exp Real.log radiance_noslit (specAbscoeffNe ℝ) =
      Except.error RescaleError.UnreachableQuantity :=
  c3_get_recompute.2.2 (specAbscoeffNe ℝ) rfl (by decide)

/-- C4: regime gating: every derivation path in the non-equilibrium update
graph is one of the regime-independent paths (no Kirchhoff or blackbody
equilibrium-only shortcut appears), emissivity_noslit has no
non-equilibrium derivation path at all, and update() under non-equilibrium
never produces emissivity_noslit. -/
theorem c4_regime_gating :
    (∀ entry ∈ _build_update_graph false, ∀ combo ∈ entry.2, (entry.1, combo) ∈ baseDeps) ∧
      graphCombos false emissivity_noslit = [] ∧
      ∀ s : Spectrum ℝ, s.cond.thermal_equilibrium = false →
        s.val emissivity_noslit = none →
        (update_all Real.exp Real.log s).val emissivity_noslit = none := by
  refine ⟨by decide, by decide, ?_⟩
  have hstep : ∀ t : Spectrum ℝ, t.cond.thermal_equilibrium = false →
      t.val emissivity_noslit = none →
      (stepSpectrum Real.exp Real.log t).val emissivity_noslit = none := by
    intro t hE hnone
    rw [stepSpectrum_val, hnone]
    show applyFirstRule Real.exp Real.log t emissivity_noslit = none
    unfold applyFirstRule
    rw [hE]
    rfl
  intro s hE hnone
  unfold update_all
  have hall : ∀ n : ℕ,
      ((stepSpectrum Real.exp Real.log)^[n] s).val emissivity_noslit = none := by
    intro n
    induction n with
    | zero => exact hnone
    | succ n ih =>
      rw [Function.iterate_succ_apply']
      exact hstep _ (by rw [iterate_cond]; exact hE) ih
  exact hall 9

/-- C4 witness: a concrete non-equilibrium path of the graph, and the
absence of emissivity_noslit after a full non-equilibrium update of the
concrete spectrum knowing only abscoeff. -/
theorem c4_regime_gating_witness :
    (radiance_noslit, [emisscoeff, abscoeff]) ∈ baseDeps ∧
      (update_all Real.exp Real.log (specAbscoeffNe ℝ)).val emissivity_noslit = none :=
  ⟨c4_regime_gating.1 (radiance_noslit, [[emisscoeff, abscoeff]]) (by decide)
      [emisscoeff, abscoeff] (by decide),
    c4_regime_gating.2.2 (specAbscoeffNe ℝ) rfl rfl⟩

/-- C2 counterexample: the claimed equivalence "redundant iff reachable
from K - {q}" fails at q = abscoeff for the very known set of
test_compression: on the equilibrium known set K7, abscoeff is reachable
from K7 - {abscoeff} (through absorbance), yet get_redundant classifies it
as not redundant, exactly as the test asserts. -/
theorem c2_redundancy_counterexample :
    abscoeff ∈ K7 ∧
      abscoeff ∈ get_reachable true (K7.erase abscoeff) ∧
      List.lookup abscoeff (get_redundant true K7) = some false := by decide

/-- C2 (amended): get_redundant performs a greedy compression sweep: in a
fixed priority order (raw abscoeff last), a known quantity is redundant iff
one of its derivation combinations lies entirely within the known
quantities not already marked redundant.  On the equilibrium spectrum whose
known set K7 was filled by update() from abscoeff alone, this marks every
quantity except abscoeff redundant and abscoeff not redundant. -/
theorem c2_redundancy_amended :
    get_reachable true [abscoeff] = K7 ∧
      get_redundant true K7 =
        [(emissivity_noslit, true), (radiance_noslit, true), (emisscoeff, true),
         (transmittance_noslit, true), (absorbance, true), (xsection, true),
         (abscoeff, false)] := by decide

/-- C5: rescale_path_length normalizes unit-valued inputs to the internal
unit before the ratio is computed, so dimensionally equal inputs (e.g.
100000 cm and 1 km) yield bit-identical resulting quantity arrays and the
same stored path_length condition. -/
theorem c5_unit_equivalence :
    (LengthValue.mk (100000 : ℝ) LengthUnit.cm).toInternal =
        (LengthValue.mk (1 : ℝ) LengthUnit.km).toInternal ∧
      ∀ (s : Spectrum ℝ) (L1 L2 : LengthValue ℝ), L1.toInternal = L2.toInternal →
        rescale_path_length Real.exp Real.log s L1 =
            rescale_path_length Real.exp Real.log s L2 ∧
          (rescale_path_length Real.exp Real.log s L1).cond.path_length =
            (rescale_path_length Real.exp Real.log s L2).cond.path_length := by
  constructor
  · show (100000 : ℝ) * (1 : ℝ) = (1 : ℝ) * (100000 : ℝ)
    ring
  · intro s L1 L2 h
    unfold rescale_path_length
    rw [h]
    exact ⟨rfl, rfl⟩

/-- C5 witness: rescaling the concrete spectrum by 100000 cm and by 1 km
gives identical spectra. -/
theorem c5_unit_equivalence_witness :
    rescale_path_length Real.exp Real.log (specAbscoeffNe ℝ)
        (LengthValue.mk (100000 : ℝ) LengthUnit.cm) =
      rescale_path_length Real.exp Real.log (specAbscoeffNe ℝ)
        (LengthValue.mk (1 : ℝ) LengthUnit.km) :=
  (c5_unit_equivalence.2 (specAbscoeffNe ℝ) _ _ c5_unit_equivalence.1).1

/-- C7: on every consistent well-posed spectrum storing abscoeff and
xsection, abscoeff = xsection * mole_fraction * number_density holds, and
rescale_mole_fraction preserves the relation: xsection is unchanged,
abscoeff is scaled by the new/old mole-fraction ratio, and the relation
holds again at the new mole fraction, which is stored in the conditions. -/
theorem c7_xsection_relation (s : Spectrum ℝ) (k j x2 : ℝ)
    (hc : Consistent Real.exp s k j) (hw : WellPosed s.cond k j)
    (ha : (s.val abscoeff).isSome = true) (hs : (s.val xsection).isSome = true) :
    ∃ a σ, s.val abscoeff = some a ∧ s.val xsection = some σ ∧
      a = σ * s.cond.mole_fraction * s.cond.number_density ∧
      (rescale_mole_fraction Real.exp Real.log s x2).val xsection = some σ ∧
      (rescale_mole_fraction Real.exp Real.log s x2).val abscoeff =
        some (a * (x2 / s.cond.mole_fraction)) ∧
      a * (x2 / s.cond.mole_fraction) = σ * x2 * s.cond.number_density ∧
      (rescale_mole_fraction Real.exp Real.log s x2).cond.mole_fraction = x2 := by
  obtain ⟨hL, hx, hN, hk, hj⟩ := hw
  have hva : s.val abscoeff = some k := consistent_val hc ha
  have hvs : s.val xsection = some (k / (s.cond.mole_fraction * s.cond.number_density)) :=
    consistent_val hc hs
  refine ⟨k, k / (s.cond.mole_fraction * s.cond.number_density), hva, hvs, ?_, hvs, ?_, ?_, rfl⟩
  · field_simp
    ring
  · show (s.val abscoeff).map (fun kv => kv * (x2 / s.cond.mole_fraction)) = _
    rw [hva]
    rfl
  · field_simp
    ring

/-- C7 witness: the relation and its preservation on the concrete
consistent spectrum knowing abscoeff and xsection, rescaled to mole
fraction 1/2. -/
theorem c7_xsection_relation_witness :
    ∃ a σ, (specXsection ℝ Real.exp).val abscoeff = some a ∧
      (specXsection ℝ Real.exp).val xsection = some σ ∧
      a = σ * (specXsection ℝ Real.exp).cond.mole_fraction *
        (specXsection ℝ Real.exp).cond.number_density ∧
      (rescale_mole_fraction Real.exp Real.log (specXsection ℝ Real.exp) (1 / 2)).val
          xsection = some σ ∧
      (rescale_mole_fraction Real.exp Real.log (specXsection ℝ Real.exp) (1 / 2)).val
          abscoeff =
        some (a * ((1 / 2) / (specXsection ℝ Real.exp).cond.mole_fraction)) ∧
      a * ((1 / 2) / (specXsection ℝ Real.exp).cond.mole_fraction) =
        σ * (1 / 2) * (specXsection ℝ Real.exp).cond.number_density ∧
      (rescale_mole_fraction Real.exp Real.log (specXsection ℝ Real.exp)
          (1 / 2)).cond.mole_fraction = 1 / 2 :=
  c7_xsection_relation (specXsection ℝ Real.exp) 1 1 (1 / 2) consistent_specXsection
    wellPosed_condNe rfl rfl

/-- C8: when the temperatures diverge from the declared equilibrium regime
(e.g. Tvib moved away from Tgas while thermal_equilibrium is asserted),
is_at_equilibrium fails assertion-style with RegimeMismatch under
check=error; under the other check mode it only emits a warning and
returns, and recomputation proceeds under the declared regime (update's
reachable set is governed by the declared thermal_equilibrium flag). -/
theorem c8_regime_mismatch (c : Conditions ℝ)
    (hdecl : c.thermal_equilibrium = true) (hdiv : temps_match c = false) :
    is_at_equilibrium c CheckMode.error = Except.error RescaleError.RegimeMismatch ∧
      is_at_equilibrium c CheckMode.warn = Except.ok (false, true) ∧
      ∀ s : Spectrum ℝ, s.cond = c →
        vars (update_all Real.exp Real.log s) =
          get_reachable c.thermal_equilibrium (vars s) := by
  have hne : (temps_match c == c.thermal_equilibrium) = false := by
    rw [hdiv, hdecl]
    rfl
  refine ⟨?_, ?_, ?_⟩
  · simp only [is_at_equilibrium]
    rw [hne]
    rfl
  · simp only [is_at_equilibrium]
    rw [hne, hdiv]
    rfl
  · intro s hsc
    rw [← hsc]
    unfold update_all get_reachable
    rw [vars_iterate]

/-- C8 witness: the concrete mismatched conditions of test_get_recompute
(Tgas 1500 K, Tvib 2000 K, equilibrium declared). -/
theorem c8_regime_mismatch_witness :
    is_at_equilibrium (condMismatch ℝ) CheckMode.error =
        Except.error RescaleError.RegimeMismatch ∧
      is_at_equilibrium (condMismatch ℝ) CheckMode.warn = Except.ok (false, true) :=
  ⟨(c8_regime_mismatch (condMismatch ℝ) rfl (by decide)).1,
    (c8_regime_mismatch (condMismatch ℝ) rfl (by decide)).2.1⟩

/-- C10: when the vibrational and rotational temperatures coincide,
recomputing radiance_noslit under the equilibrium regime (direct
blackbody-weighted path from abscoeff) and under the forced
non-equilibrium regime (radiative-transfer path from the Kirchhoff
emisscoeff together with abscoeff) give the same array. -/
theorem c10_equilibrium_vs_rte (c : Conditions ℝ) (k : ℝ)
    (hL : c.path_length ≠ 0) (hx : c.mole_fraction ≠ 0) (hN : c.number_density ≠ 0)
    (hk : k ≠ 0) :
    (update_all Real.exp Real.log (eqFromAbscoeff c k)).val radiance_noslit =
      (update_all Real.exp Real.log (neFromKirchhoff c k)).val radiance_noslit := by
  have hw1 : WellPosed (eqFromAbscoeff c k).cond k (k * c.planck) :=
    ⟨hL, hx, hN, hk, fun _ => rfl⟩
  have hw2 : WellPosed (neFromKirchhoff c k).cond k (k * c.planck) :=
    ⟨hL, hx, hN, hk, fun h => absurd h Bool.false_ne_true⟩
  have hv1 : vars (eqFromAbscoeff c k) = [abscoeff] := rfl
  have hv2 : vars (neFromKirchhoff c k) = [abscoeff, emisscoeff] := rfl
  have hr1 : radiance_noslit ∈
      get_reachable (eqFromAbscoeff c k).cond.thermal_equilibrium
        (vars (eqFromAbscoeff c k)) := by
    rw [hv1]
    show radiance_noslit ∈ get_reachable true [abscoeff]
    decide
  have hr2 : radiance_noslit ∈
      get_reachable (neFromKirchhoff c k).cond.thermal_equilibrium
        (vars (neFromKirchhoff c k)) := by
    rw [hv2]
    show radiance_noslit ∈ get_reachable false [abscoeff, emisscoeff]
    decide
  rw [update_all_val (consistent_eqFromAbscoeff c k) hw1 hr1,
    update_all_val (consistent_neFromKirchhoff c k) hw2 hr2]
  rfl

/-- C10 witness: the agreement at the concrete unit conditions with k = 1. -/
theorem c10_equilibrium_vs_rte_witness :
    (update_all Real.exp Real.log (eqFromAbscoeff (condNe ℝ) 1)).val radiance_noslit =
      (update_all Real.exp Real.log (neFromKirchhoff (condNe ℝ) 1)).val radiance_noslit :=
  c10_equilibrium_vs_rte (condNe ℝ) 1 one_ne_zero one_ne_zero one_ne_zero one_ne_zero

/-- C1 counterexample: read over all quantities reachable from the known
set K itself (which includes every known quantity), the round trip fails:
on the consistent non-equilibrium spectrum knowing exactly abscoeff,
abscoeff is reachable from K = {abscoeff}, but deleting it and calling
update("abscoeff") fails with UnreachableQuantity instead of reproducing
the stored array. -/
theorem c1_round_trip_counterexample :
    abscoeff ∈ get_reachable false (vars (specAbscoeffNe ℝ)) ∧
      (specAbscoeffNe ℝ).val abscoeff = some 1 ∧
      updateQuantity Real.exp Real.log abscoeff (deleteQty abscoeff (specAbscoeffNe ℝ)) =
        Except.error RescaleError.UnreachableQuantity := by
  refine ⟨by decide, rfl, ?_⟩
  unfold updateQuantity
  have h1 : ((update_all Real.exp Real.log
      (deleteQty abscoeff (specAbscoeffNe ℝ))).val abscoeff).isSome = false := by
    rw [update_all_isSome]
    have hv : vars (deleteQty abscoeff (specAbscoeffNe ℝ)) = [] := by decide
    rw [hv]
    decide
  simp [h1]

/-- C1 (amended): round-trip property, for every quantity that remains
reachable after its own deletion: on a consistent well-posed spectrum,
deleting a known quantity q that is reachable from K - {q} and calling
update(q) succeeds and reproduces the original array exactly (hence within
relative tolerance 1e-6). -/
theorem c1_round_trip (s : Spectrum ℝ) (k j a : ℝ) (q : Qty)
    (hc : Consistent Real.exp s k j) (hw : WellPosed s.cond k j)
    (hq : s.val q = some a)
    (hreach : q ∈ get_reachable s.cond.thermal_equilibrium (vars (deleteQty q s))) :
    updateQuantity Real.exp Real.log q (deleteQty q s) =
        Except.ok (update_all Real.exp Real.log (deleteQty q s)) ∧
      (update_all Real.exp Real.log (deleteQty q s)).val q = some a := by
  have hcd : Consistent Real.exp (deleteQty q s) k j := by
    intro p v h
    unfold deleteQty at h
    dsimp only at h
    split at h
    · exact absurd h (by simp)
    · exact hc p v h
  have hwd : WellPosed (deleteQty q s).cond k j := hw
  have hval := update_all_val hcd hwd (q := q) hreach
  have ha : a = Canon Real.exp s.cond k j q := hc q a hq
  constructor
  · unfold updateQuantity
    simp [hval]
  · rw [hval, ha]
    rfl

/-- C1 witness: the round trip at the concrete consistent spectrum knowing
abscoeff and absorbance, deleting and recomputing absorbance. -/
theorem c1_round_trip_witness :
    updateQuantity Real.exp Real.log absorbance
        (deleteQty absorbance (specRoundTrip ℝ Real.exp)) =
        Except.ok (update_all Real.exp Real.log
          (deleteQty absorbance (specRoundTrip ℝ Real.exp))) ∧
      (update_all Real.exp Real.log
          (deleteQty absorbance (specRoundTrip ℝ Real.exp))).val absorbance =
        some (Canon Real.exp (condNe ℝ) 1 1 absorbance) :=
  c1_round_trip (specRoundTrip ℝ Real.exp) 1 1 (Canon Real.exp (condNe ℝ) 1 1 absorbance)
    absorbance consistent_specRoundTrip wellPosed_condNe rfl (by decide)

/-- C6: rescale consistency: on a consistent well-posed spectrum storing
the raw coefficients (abscoeff, emisscoeff) together with the derived
absorbance, transmittance_noslit and radiance_noslit, applying
rescale_path_length(L2) directly produces exactly the same three derived
arrays as keeping only the raw precursors at path_length = L2 and
recomputing them through the Updater. -/
theorem c6_rescale_consistency (s : Spectrum ℝ) (k j L2 : ℝ)
    (hc : Consistent Real.exp s k j) (hw : WellPosed s.cond k j) (hL2 : L2 ≠ 0)
    (hka : (s.val abscoeff).isSome = true) (hje : (s.val emisscoeff).isSome = true)
    (hA : (s.val absorbance).isSome = true)
    (hT : (s.val transmittance_noslit).isSome = true)
    (hI : (s.val radiance_noslit).isSome = true) :
    ∀ q ∈ [absorbance, transmittance_noslit, radiance_noslit],
      (rescale_path_length_cm Real.exp Real.log s L2).val q =
        (update_all Real.exp Real.log (rawPrecursors s L2)).val q := by
  obtain ⟨hL, hx, hN, hk, hj⟩ := hw
  have hva : s.val abscoeff = some k := consistent_val hc hka
  have hvj : s.val emisscoeff = some j := consistent_val hc hje
  have hvA : s.val absorbance = some (k * s.cond.path_length) := consistent_val hc hA
  have hvT : s.val transmittance_noslit = some (Real.exp (-(k * s.cond.path_length))) :=
    consistent_val hc hT
  have hvI : s.val radiance_noslit =
      some (j / k * (1 - Real.exp (-(k * s.cond.path_length)))) := consistent_val hc hI
  have hcr : Consistent Real.exp (rawPrecursors s L2) k j := by
    intro p v h
    unfold rawPrecursors at h
    dsimp only at h
    split at h
    · rename_i h1
      subst h1
      rw [hva] at h
      exact (Option.some.inj h).symm
    · split at h
      · rename_i h2
        subst h2
        rw [hvj] at h
        exact (Option.some.inj h).symm
      · exact absurd h (by simp)
  have hwr : WellPosed (rawPrecursors s L2).cond k j := ⟨hL2, hx, hN, hk, hj⟩
  have hvars : vars (rawPrecursors s L2) = [abscoeff, emisscoeff] := by
    simp [vars, rawPrecursors, allQty, hka, hje]
  have harg : k * s.cond.path_length * (L2 / s.cond.path_length) = k * L2 := by
    field_simp
    ring
  intro q hq
  simp only [List.mem_cons, List.not_mem_nil, or_false] at hq
  rcases hq with rfl | rfl | rfl
  · have hr : absorbance ∈
        get_reachable (rawPrecursors s L2).cond.thermal_equilibrium
          (vars (rawPrecursors s L2)) := by
      rw [hvars]
      show absorbance ∈ get_reachable s.cond.thermal_equilibrium [abscoeff, emisscoeff]
      cases s.cond.thermal_equilibrium <;> decide
    rw [update_all_val hcr hwr hr]
    dsimp only [rescale_path_length_cm]
    rw [hvA]
    show some (k * s.cond.path_length * (L2 / s.cond.path_length)) = some (k * L2)
    rw [harg]
  · have hr : transmittance_noslit ∈
        get_reachable (rawPrecursors s L2).cond.thermal_equilibrium
          (vars (rawPrecursors s L2)) := by
      rw [hvars]
      show transmittance_noslit ∈
        get_reachable s.cond.thermal_equilibrium [abscoeff, emisscoeff]
      cases s.cond.thermal_equilibrium <;> decide
    rw [update_all_val hcr hwr hr]
    dsimp only [rescale_path_length_cm]
    rw [hvT]
    simp only [Option.some_bind]
    rw [hvA]
    show some (Real.exp (-(k * s.cond.path_length * (L2 / s.cond.path_length)))) =
      some (Canon Real.exp (rawPrecursors s L2).cond k j transmittance_noslit)
    rw [harg]
    rfl
  · have hr : radiance_noslit ∈
        get_reachable (rawPrecursors s L2).cond.thermal_equilibrium
          (vars (rawPrecursors s L2)) := by
      rw [hvars]
      show radiance_noslit ∈ get_reachable s.cond.thermal_equilibrium [abscoeff, emisscoeff]
      cases s.cond.thermal_equilibrium <;> decide
    rw [update_all_val hcr hwr hr]
    dsimp only [rescale_path_length_cm]
    rw [hvI]
    simp only [Option.some_bind]
    rw [hvj, hva]
    rfl

/-- C6 witness: the agreement of the three derived quantities on the
concrete consistent spectrum rescaled from path length 1 to 2. -/
theorem c6_rescale_consistency_witness :
    ((rescale_path_length_cm Real.exp Real.log (specFull ℝ Real.exp) 2).val absorbance =
        (update_all Real.exp Real.log (rawPrecursors (specFull ℝ Real.exp) 2)).val
          absorbance) ∧
      ((rescale_path_length_cm Real.exp Real.log (specFull ℝ Real.exp) 2).val
          transmittance_noslit =
        (update_all Real.exp Real.log (rawPrecursors (specFull ℝ Real.exp) 2)).val
          transmittance_noslit) ∧
      ((rescale_path_length_cm Real.exp Real.log (specFull ℝ Real.exp) 2).val
          radiance_noslit =
        (update_all Real.exp Real.log (rawPrecursors (specFull ℝ Real.exp) 2)).val
          radiance_noslit) :=
  ⟨c6_rescale_consistency (specFull ℝ Real.exp) 1 1 2 consistent_specFull wellPosed_condNe
      (by norm_num) rfl rfl rfl rfl rfl absorbance (by simp),
    c6_rescale_consistency (specFull ℝ Real.exp) 1 1 2 consistent_specFull wellPosed_condNe
      (by norm_num) rfl rfl rfl rfl rfl transmittance_noslit (by simp),
    c6_rescale_consistency (specFull ℝ Real.exp) 1 1 2 consistent_specFull wellPosed_condNe
      (by norm_num) rfl rfl rfl rfl rfl radiance_noslit (by simp)⟩

end Radis
